import Mathlib

/-!
Verification of the request-normalization, polling and result-extraction core
of a browser-facing image-generation proxy (an Express server `server.js`
plus its browser client `public/app.js`).

The JavaScript source is shallowly embedded:

* JSON/JS values are modelled by `JsonVal` (an inductive document type).
  JS numbers are modelled as integers (`Int`); non-integer numerics and
  floating-point rounding, such as the `toFixed(2)` conversion of elapsed
  milliseconds to seconds, are outside the model, so elapsed time is carried
  in milliseconds.  `undefined` and `null` are conflated into `JsonVal.null`:
  every place the source inspects a possibly-absent field it does so through
  `typeof`-style checks or nullish coalescing, for which the two behave alike.
* String primitives (`trim`, `toLowerCase`, `toUpperCase`, `startsWith`,
  `length`, the regex tests used by the client) are re-implemented
  character-list-wise for the ASCII fragment that the code exercises;
  JS Unicode case mapping and the full Unicode `\s` class are out of scope.
* The network and the wall clock are abstracted into an oracle (`Network`,
  `PollStep`): each poll iteration receives the parsed response body, the
  HTTP success flag and the wall-clock time the iteration consumed beyond
  the fixed sleep.  The polling loop itself is embedded with explicit fuel;
  the fuel is consumed only when the source loop would actually iterate,
  so every theorem supplies enough fuel for the behaviour under study.
-/

namespace Meepo

/-- A schema-less JSON/JS document value.  Object fields are kept in
insertion order with unique keys, matching a parsed JSON object. -/
inductive JsonVal where
  | null
  | bool (b : Bool)
  | num (n : Int)
  | str (s : String)
  | arr (items : List JsonVal)
  | obj (fields : List (String × JsonVal))

/-- First-match association lookup, the embedding of JS property access
(object keys are unique after JSON parsing). -/
def lookupField : List (String × JsonVal) → String → JsonVal
  | [], _ => .null
  | (k, v) :: rest, name => if k = name then v else lookupField rest name

/-- Property access `o.name`: `.null` stands for JS `undefined` on
non-objects and missing keys. -/
def getFieldJS : JsonVal → String → JsonVal
  | .obj fields, name => lookupField fields name
  | _, _ => .null

/-- JS falsiness of a document value (`!v`): `null`/`undefined`, `false`,
`0` and the empty string are falsy. -/
def jsFalsy : JsonVal → Bool
  | .null => true
  | .bool b => !b
  | .num n => n == 0
  | .str s => s == ""
  | _ => false

/-- Nullish coalescing `a ?? b` (with `undefined` conflated into `.null`). -/
def jsCoalesce (a b : JsonVal) : JsonVal :=
  match a with
  | .null => b
  | v => v

/-- The object-typed-and-truthy test `v && typeof v === "object"`:
true for objects and arrays, false for `null` and primitives. -/
def isObjectLike : JsonVal → Bool
  | .obj _ => true
  | .arr _ => true
  | _ => false

/-- Whitespace as the source's `trim` / `\s` handling uses it
(ASCII fragment of the JS classes). -/
def jsIsWhitespace (c : Char) : Bool :=
  c = ' ' || c = '\t' || c = '\n' || c = '\r' || c = '\x0b' || c = '\x0c'

/-- Embedding of `String.prototype.trim`. -/
def jsTrim (s : String) : String :=
  ⟨((s.data.dropWhile jsIsWhitespace).reverse.dropWhile jsIsWhitespace).reverse⟩

/-- Embedding of `toLowerCase` (ASCII). -/
def jsToLower (s : String) : String :=
  ⟨s.data.map Char.toLower⟩

/-- Embedding of `toUpperCase` (ASCII). -/
def jsToUpper (s : String) : String :=
  ⟨s.data.map Char.toUpper⟩

/-- Embedding of `s.startsWith(p)`. -/
def startsWithStr (p s : String) : Bool :=
  p.data.isPrefixOf s.data

/-- The coercion `typeof v === "string" ? v : d` used for defaulted
string-valued fields. -/
def jsStringOr (v : JsonVal) (d : String) : String :=
  match v with
  | .str s => s
  | _ => d

/-- The coercion `typeof v === "string" ? v : ""` used for `prompt`. -/
def jsStringOrEmpty (v : JsonVal) : String :=
  jsStringOr v ""

/-- Leading decimal digits of a character list, if any. -/
def leadingDigits (cs : List Char) : Option Nat :=
  let ds := cs.takeWhile Char.isDigit
  if ds.isEmpty then none
  else some (ds.foldl (fun a c => 10 * a + (c.toNat - 48)) 0)

/-- Embedding of `Number.parseInt(v, 10)`: on strings, skip leading
whitespace, read an optional sign and the longest digit run (`none` is
JS `NaN`); integer numbers parse to themselves.  Other values (`null`,
`undefined`, booleans) stringify to unparseable text and give `NaN`;
array/object coercions are outside the model. -/
def parseIntJS : JsonVal → Option Int
  | .str s =>
    match s.data.dropWhile jsIsWhitespace with
    | '-' :: rest => (leadingDigits rest).map (fun n => -(n : Int))
    | '+' :: rest => (leadingDigits rest).map (fun n => (n : Int))
    | cs => (leadingDigits cs).map (fun n => (n : Int))
  | .num n => some n
  | _ => none

/-- `server.js`: `const clampNumber = (value, min, max) => Math.min(max, Math.max(min, value));` -/
def clampNumber (value lo hi : Int) : Int :=
  min hi (max lo value)

/-- Server-side configuration (environment variables), resolved once at
startup as the source does.  `seedreamVersion` is the already-coalesced
`REPLICATE_SEEDREAM_VERSION || REPLICATE_MODEL_VERSION`. -/
structure Env where
  hasToken : Bool
  seedreamVersion : Option String
  nanoBananaVersion : Option String
  refineVersion : Option String
  defaultModelKey : String

/-- `MODEL_CONFIG` lookup: `none` means the model key is unsupported,
`some v` gives that model's (possibly missing) configured version. -/
def modelVersion (env : Env) : String → Option (Option String)
  | "seedream" => some env.seedreamVersion
  | "nano-banana" => some env.nanoBananaVersion
  | _ => none

/-- `server.js` lines 413-414: a string `model_key` is used when non-empty
(`||` treats the empty string as falsy), else the configured default;
the result is lowercased. -/
def resolveModelKey (env : Env) (body : JsonVal) : String :=
  let rawModelKey : Option String :=
    match getFieldJS body "model_key" with
    | .str s => some s
    | _ => none
  jsToLower
    (match rawModelKey with
     | some s => if s = "" then env.defaultModelKey else s
     | none => env.defaultModelKey)

/-- `server.js` lines 441-443: keep only array entries that are strings
with non-empty trim (the entries themselves are kept untrimmed). -/
def imageInputOf (body : JsonVal) : List JsonVal :=
  match getFieldJS body "image_input" with
  | .arr items =>
    items.filter (fun item =>
      match item with
      | .str s => jsTrim s ≠ ""
      | _ => false)
  | _ => []

/-- `server.js` lines 448-457: seedream `size` normalization — default
`"2K"` for non-strings, then trim, lowercase-compare against `"custom"`,
uppercase-compare against the fixed menu, else default `"2K"`. -/
def normalizeSize (v : JsonVal) : String :=
  let rawSize := jsStringOr v "2K"
  let trimmedSize := jsTrim rawSize
  let lowerSize := jsToLower trimmedSize
  let upperSize := jsToUpper trimmedSize
  if lowerSize = "custom" then "custom"
  else if ["1K", "2K", "4K"].contains upperSize then upperSize
  else "2K"

/-- `server.js` lines 445-510: the per-model `inputPayload` construction,
given the already-trimmed prompt.  Field insertion order matches the
source object literals. -/
def buildInputPayload (body : JsonVal) (modelKey : String) (trimmedPrompt : String) : JsonVal :=
  let imageInput := imageInputOf body
  if modelKey = "seedream" then
    let size := normalizeSize (getFieldJS body "size")
    let aspect := jsStringOr (getFieldJS body "aspect_ratio") "match_input_image"
    let sequential := jsStringOr (getFieldJS body "sequential_image_generation") "disabled"
    let maxImages :=
      match parseIntJS (getFieldJS body "max_images") with
      | none => (1 : Int)
      | some m => clampNumber m 1 15
    let base : List (String × JsonVal) :=
      [("prompt", .str trimmedPrompt), ("size", .str size), ("aspect_ratio", .str aspect),
       ("sequential_image_generation", .str sequential), ("max_images", .num maxImages)]
    let withW :=
      if size = "custom" then
        match parseIntJS (getFieldJS body "width") with
        | some w => base ++ [("width", JsonVal.num (clampNumber w 1024 4096))]
        | none => base
      else base
    let withH :=
      if size = "custom" then
        match parseIntJS (getFieldJS body "height") with
        | some h => withW ++ [("height", JsonVal.num (clampNumber h 1024 4096))]
        | none => withW
      else withW
    .obj (if imageInput.length > 0 then withH ++ [("image_input", JsonVal.arr imageInput)] else withH)
  else
    let aspect := jsStringOr (getFieldJS body "aspect_ratio") "16:9"
    let outputFormat := jsStringOr (getFieldJS body "output_format") "jpg"
    let base : List (String × JsonVal) :=
      [("prompt", .str trimmedPrompt), ("aspect_ratio", .str aspect),
       ("output_format", .str outputFormat)]
    .obj (if imageInput.length > 0 then base ++ [("image_input", JsonVal.arr imageInput)] else base)

/-- The pre-network failure modes of `POST /api/predictions`
(`server.js` lines 405-439), in source order. -/
inductive Phase1Error where
  | missingToken
  | unsupportedModel (key : String)
  | missingVersion (key : String)
  | missingPrompt

/-- HTTP status attached to each pre-network failure. -/
def phase1Status : Phase1Error → Nat
  | .missingToken => 500
  | .unsupportedModel _ => 400
  | .missingVersion _ => 500
  | .missingPrompt => 400

/-- Error message attached to each pre-network failure (`server.js`
lines 405-439). -/
def phase1Message : Phase1Error → String
  | .missingToken => "Missing REPLICATE_API_TOKEN in environment."
  | .unsupportedModel k => "Unsupported model key \"" ++ k ++ "\"."
  | .missingVersion k =>
    "Missing " ++
      (if k = "seedream" then "REPLICATE_SEEDREAM_VERSION (or legacy REPLICATE_MODEL_VERSION)"
       else "REPLICATE_NANO_BANANA_VERSION") ++
      " for model \"" ++ k ++ "\"."
  | .missingPrompt => "Field \"prompt\" is required."

/-- The pure pre-network phase of `POST /api/predictions` (`server.js`
lines 405-515): token check, model-key resolution, config/version check,
prompt validation, then payload construction.  Everything network-facing
happens strictly after an `.ok` result. -/
def normalizeRequest (env : Env) (body : JsonVal) : Except Phase1Error (String × JsonVal) :=
  if env.hasToken = false then .error .missingToken
  else
    match modelVersion env (resolveModelKey env body) with
    | none => .error (.unsupportedModel (resolveModelKey env body))
    | some none => .error (.missingVersion (resolveModelKey env body))
    | some (some _) =>
      if jsTrim (jsStringOrEmpty (getFieldJS body "prompt")) = "" then .error .missingPrompt
      else
        .ok (resolveModelKey env body,
          buildInputPayload body (resolveModelKey env body)
            (jsTrim (jsStringOrEmpty (getFieldJS body "prompt"))))

/-- Field names of a normalized payload object. -/
def fieldNames : JsonVal → List String
  | .obj fields => fields.map Prod.fst
  | _ => []

/-- The field set of each model variant (spec §3). -/
def variantFields : String → List String
  | "seedream" =>
    ["prompt", "size", "aspect_ratio", "sequential_image_generation", "max_images",
     "width", "height", "image_input"]
  | _ => ["prompt", "aspect_ratio", "output_format", "image_input"]

/-- `server.js` line 269: `const terminalStatuses = new Set(["succeeded", "failed", "canceled"]);` -/
def terminalStatuses : List String :=
  ["succeeded", "failed", "canceled"]

/-- `terminalStatuses.has(prediction.status)`: a `Set.has` on a non-string
member is false, so only a string `status` field can be terminal. -/
def isTerminalPrediction (prediction : JsonVal) : Bool :=
  match getFieldJS prediction "status" with
  | .str s => terminalStatuses.contains s
  | _ => false

/-- One iteration of the environment's answer to a poll: the HTTP success
flag and status of the read request, the parsed response body, and the
wall-clock milliseconds the iteration consumed beyond the fixed sleep. -/
structure PollStep where
  ok : Bool
  httpStatus : Nat
  pred : JsonVal
  overhead : Nat

/-- The environment's answer to the create request plus the stream of
poll answers. -/
structure Network where
  createOk : Bool
  createHttpStatus : Nat
  createResult : JsonVal
  steps : Nat → PollStep

/-- Outcome of `createAndPollPrediction` (`server.js` lines 343-398):
`done` is the normal return `(prediction, elapsed)`, the error
constructors are the thrown errors (status + `details` body), `fuelOut`
is the model artifact of running out of fuel mid-loop. -/
inductive JobResult where
  | done (prediction : JsonVal) (elapsedMs : Nat)
  | createError (status : Nat) (details : JsonVal)
  | pollError (status : Nat) (details : JsonVal)
  | timedOut (lastSnapshot : JsonVal)
  | fuelOut

/-- The polling loop of `createAndPollPrediction` (`server.js` lines
365-394), returning the outcome together with the number of poll (read)
requests issued.  Source order is kept: terminal check (the `while`
condition), then the elapsed>timeout check, then sleep+poll.  `elapsed`
advances by the sleep interval plus the iteration's overhead; fuel is
consumed only when the loop body runs. -/
def pollLoop (interval timeout : Nat) (steps : Nat → PollStep) :
    Nat → Nat → JsonVal → Nat → JobResult × Nat
  | fuel, k, prediction, elapsed =>
    if isTerminalPrediction prediction then (.done prediction elapsed, 0)
    else if elapsed > timeout then (.timedOut prediction, 0)
    else
      match fuel with
      | 0 => (.fuelOut, 0)
      | fuel + 1 =>
        let s := steps k
        if s.ok then
          let r := pollLoop interval timeout steps fuel (k + 1) s.pred (elapsed + interval + s.overhead)
          (r.1, r.2 + 1)
        else (.pollError s.httpStatus s.pred, 1)

/-- The loop is never entered when the job is already terminal: the normal
result carries that prediction and the elapsed time unchanged. -/
theorem pollLoop_terminal (interval timeout : Nat) (steps : Nat → PollStep)
    (fuel k : Nat) (prediction : JsonVal) (elapsed : Nat)
    (h : isTerminalPrediction prediction = true) :
    pollLoop interval timeout steps fuel k prediction elapsed =
      (.done prediction elapsed, 0) := by
  cases fuel <;> simp [pollLoop, h]

/-- `createAndPollPrediction` (`server.js` lines 343-398): one create
request, then the polling loop on the parsed create response.  The
returned count is the total number of network requests (create + polls). -/
def createAndPollPrediction (interval timeout : Nat) (net : Network) (fuel : Nat) :
    JobResult × Nat :=
  if net.createOk then
    let r := pollLoop interval timeout net.steps fuel 0 net.createResult 0
    (r.1, r.2 + 1)
  else (.createError net.createHttpStatus net.createResult, 1)

/-- `prediction?.error || fallback` where a non-empty string `error` field
wins; other shapes fall back (the JS coercion of a truthy non-string
`error` field to a message is collapsed into the fallback). -/
def jsErrorMessage (details : JsonVal) (fallback : String) : String :=
  match getFieldJS details "error" with
  | .str s => if s = "" then fallback else s
  | _ => fallback

/-- HTTP-level result of a handler: an error response, a
`/api/predictions` success body, or a `/api/refine` success body.
Successes carry elapsed milliseconds (the `toFixed(2)` seconds conversion
is floating point and outside the model). -/
inductive HandlerResult where
  | errResp (status : Nat) (error : String) (details : Option JsonVal)
  | predictionsOk (elapsedMs : Nat) (prediction : JsonVal)
  | refineOk (refinedPrompt : String) (elapsedMs : Nat) (prediction : JsonVal)

/-- HTTP status of a handler result (`res.json` defaults to 200). -/
def handlerStatus : HandlerResult → Nat
  | .errResp s _ _ => s
  | .predictionsOk _ _ => 200
  | .refineOk _ _ _ => 200

/-- The shared `catch` mapping of thrown job errors to HTTP responses
(`server.js` lines 526-538 and 600-613): `res.status(error.status || 500)`. -/
def jobErrorResponse : JobResult → HandlerResult
  | .createError s d =>
    .errResp (if s = 0 then 500 else s) (jsErrorMessage d "Failed to create prediction.") (some d)
  | .pollError s d =>
    .errResp (if s = 0 then 500 else s) (jsErrorMessage d "Failed while polling prediction status.") (some d)
  | .timedOut p =>
    .errResp 504 "Timed out while waiting for Replicate prediction to finish." (some p)
  | .done p e => .predictionsOk e p
  | .fuelOut => .errResp 500 "Unexpected server error." none

/-- `POST /api/predictions` (`server.js` lines 403-539) end to end,
returning the HTTP-level result and the number of network requests made.
Pre-network failures answer immediately with zero network requests. -/
def handlePredictions (env : Env) (body : JsonVal) (net : Network)
    (fuel interval timeout : Nat) : HandlerResult × Nat :=
  match normalizeRequest env body with
  | .error e => (.errResp (phase1Status e) (phase1Message e) none, 0)
  | .ok _ =>
    let r := createAndPollPrediction interval timeout net fuel
    match r.1 with
    | .done p e => (.predictionsOk e p, r.2)
    | other => (jobErrorResponse other, r.2)

/-- `const normalizeText = (value) => typeof value === "string" ? value.trim() : "";` -/
def normalizeText (value : JsonVal) : String :=
  match value with
  | .str s => jsTrim s
  | _ => ""

/-- Candidates contributed by a nested `content` list element
(`server.js` lines 315-321): strings, and objects with a string `text`. -/
def contentCandidates : List JsonVal → List String
  | [] => []
  | piece :: rest =>
    (match piece with
     | .str s => [s]
     | _ =>
       if isObjectLike piece then
         match getFieldJS piece "text" with
         | .str t => [t]
         | _ => []
       else []) ++ contentCandidates rest

/-- Candidates contributed by one element of a list `output`
(`server.js` lines 304-324): the string itself, or an object's string
`text` then `message` fields, then its `content` list's candidates. -/
def itemCandidates (item : JsonVal) : List String :=
  match item with
  | .str s => [s]
  | _ =>
    if isObjectLike item then
      (match getFieldJS item "text" with
       | .str t => [t]
       | _ => []) ++
      (match getFieldJS item "message" with
       | .str m => [m]
       | _ => []) ++
      (match getFieldJS item "content" with
       | .arr pieces => contentCandidates pieces
       | _ => [])
    else []

/-- Split on the newline character, as `logs.split("\n")` does. -/
def splitOnNl : List Char → List (List Char)
  | [] => [[]]
  | c :: rest =>
    let r := splitOnNl rest
    if c = '\n' then [] :: r
    else
      match r with
      | [] => [[c]]
      | l :: ls => (c :: l) :: ls

/-- Join with single spaces, as `.join(" ")` does. -/
def joinSpace : List String → String
  | [] => ""
  | [s] => s
  | s :: rest => s ++ " " ++ joinSpace rest

/-- `logs.split("\n").slice(-5).join(" ")` (`server.js` line 332). -/
def lastFiveLogLines (logs : String) : String :=
  let lines := (splitOnNl logs.data).map (fun l => String.mk l)
  joinSpace (lines.drop (lines.length - 5))

/-- The ordered candidate list of `extractTextOutput` (`server.js` lines
297-333): a string `output`; each list-`output` element's candidates; a
string `output_text`; the last five log lines joined by spaces. -/
def textCandidates (prediction : JsonVal) : List String :=
  (match getFieldJS prediction "output" with
   | .str s => [s]
   | _ => []) ++
  (match getFieldJS prediction "output" with
   | .arr items => (items.map itemCandidates).flatten
   | _ => []) ++
  (match getFieldJS prediction "output_text" with
   | .str s => [s]
   | _ => []) ++
  (match getFieldJS prediction "logs" with
   | .str s => [lastFiveLogLines s]
   | _ => [])

/-- First candidate whose trim is non-empty, returned trimmed
(`server.js` lines 335-338 through `normalizeText`); else `""`. -/
def firstNonEmpty : List String → String
  | [] => ""
  | c :: rest =>
    let t := jsTrim c
    if t ≠ "" then t else firstNonEmpty rest

/-- `extractTextOutput` (`server.js` lines 294-341). -/
def extractTextOutput (prediction : JsonVal) : String :=
  if jsFalsy prediction then ""
  else firstNonEmpty (textCandidates prediction)

/-- `POST /api/refine` (`server.js` lines 541-614): token and refine-model
configuration checks, prompt validation, the job run, then text extraction
with fallback to the trimmed prompt. -/
def handleRefine (env : Env) (body : JsonVal) (net : Network)
    (fuel interval timeout : Nat) : HandlerResult × Nat :=
  if env.hasToken = false then
    (.errResp 500 "Missing REPLICATE_API_TOKEN in environment." none, 0)
  else if env.refineVersion = none then
    (.errResp 500 "Missing REPLICATE_REFINE_MODEL_VERSION in environment. Set it to the latest version id for openai/gpt-5-mini." none, 0)
  else
    let trimmedPrompt := jsTrim (jsStringOrEmpty (getFieldJS body "prompt"))
    if trimmedPrompt = "" then
      (.errResp 400 "Field \"prompt\" is required." none, 0)
    else
      let r := createAndPollPrediction interval timeout net fuel
      match r.1 with
      | .done p e =>
        let extracted := extractTextOutput p
        let refined := if extracted = "" then trimmedPrompt else extracted
        (.refineOk refined e p, r.2)
      | other => (jobErrorResponse other, r.2)

/-- The scheme test of `normalizeImageValue` (`app.js` lines 241-247):
`http://`, `https://` or `data:`. -/
def hasUrlScheme (s : String) : Bool :=
  startsWithStr "http://" s || startsWithStr "https://" s || startsWithStr "data:" s

/-- One character of the base64 alphabet class `[A-Za-z0-9+/=\s]`. -/
def base64AlphabetChar (c : Char) : Bool :=
  c.isAlphanum || c = '+' || c = '/' || c = '=' || jsIsWhitespace c

/-- The test `/^[A-Za-z0-9+\/=\s]+$/.test(s)` (`app.js` line 249):
non-empty and all characters in the class. -/
def base64AlphabetTest (s : String) : Bool :=
  !s.data.isEmpty && s.data.all base64AlphabetChar

/-- `extension.replace(/[^a-z0-9]/gi, "") || "jpeg"` (`app.js` line 254). -/
def sanitizeFormat (extension : String) : String :=
  let f := String.mk (extension.data.filter Char.isAlphanum)
  if f = "" then "jpeg" else f

/-- `trimmed.replace(/\s/g, "")` (`app.js` line 255). -/
def stripWhitespace (s : String) : String :=
  String.mk (s.data.filter (fun c => !jsIsWhitespace c))

/-- `normalizeImageValue` (`app.js` lines 236-259).  The UI-state lookup of
the expected download extension (`modelStates[...]...downloadExtension`)
is abstracted into the `extension` argument. -/
def normalizeImageValue (value : JsonVal) (extension : String) : Option String :=
  match value with
  | .str raw =>
    let trimmed := jsTrim raw
    if trimmed = "" then none
    else if hasUrlScheme trimmed then some trimmed
    else if base64AlphabetTest trimmed ∧ trimmed.length > 100 then
      some ("data:image/" ++ sanitizeFormat extension ++ ";base64," ++ stripWhitespace trimmed)
    else none
  | _ => none

/-- The four object probes `[item.image, item.url, item.uri, item.path]`
tried through normalization, first success wins (`app.js` lines 277-281
and 287-291). -/
def probeSources (extension : String) : List JsonVal → Option String
  | [] => none
  | v :: rest =>
    match normalizeImageValue v extension with
    | some u => some u
    | none => probeSources extension rest

/-- The list-output scan of `extractImageUrl` (`app.js` lines 269-284):
for each element, a string is normalized directly; an object-like element
has its `image`, `url`, `uri`, `path` fields probed through
normalization; the first success in source order is returned. -/
def scanOutputList (extension : String) : List JsonVal → Option String
  | [] => none
  | item :: rest =>
    let fromString :=
      match item with
      | .str s => normalizeImageValue (.str s) extension
      | _ => none
    match fromString with
    | some u => some u
    | none =>
      let fromObject :=
        if isObjectLike item then
          probeSources extension
            [getFieldJS item "image", getFieldJS item "url", getFieldJS item "uri",
             getFieldJS item "path"]
        else none
      match fromObject with
      | some u => some u
      | none => scanOutputList extension rest

/-- The body of `extractImageUrl` after the output source is resolved
(`app.js` lines 265-294): a string output is normalized and returned even
when normalization fails; a list output is scanned; then any truthy
object-typed output (arrays included, whose probes all miss) has its four
fields probed. -/
def extractFromOutput (output : JsonVal) (extension : String) : Option String :=
  match output with
  | .str s => normalizeImageValue (.str s) extension
  | _ =>
    let arrHit :=
      match output with
      | .arr items => scanOutputList extension items
      | _ => none
    match arrHit with
    | some u => some u
    | none =>
      if isObjectLike output then
        probeSources extension
          [getFieldJS output "image", getFieldJS output "url", getFieldJS output "uri",
           getFieldJS output "path"]
      else none

/-- `extractImageUrl` (`app.js` lines 261-295): falsy predictions give
`null`; the candidate source is `prediction.output ?? prediction.images`. -/
def extractImageUrl (prediction : JsonVal) (extension : String) : Option String :=
  if jsFalsy prediction then none
  else
    extractFromOutput
      (jsCoalesce (getFieldJS prediction "output") (getFieldJS prediction "images")) extension

/-- A prediction stuck in the non-terminal status "processing". -/
def procPrediction : JsonVal := .obj [("status", .str "processing")]

/-- A poll oracle that always answers successfully with a "processing" job. -/
def stuckSteps : Nat → PollStep := fun _ => ⟨true, 200, procPrediction, 0⟩

/-- Generic behaviour of the polling loop when every poll succeeds but the
job never reaches a terminal status: the loop ends in `timedOut` carrying
the last received snapshot, and the `n`-th poll is only issued when at
most `timeout` milliseconds had elapsed before its sleep. -/
theorem pollLoop_stuck (interval timeout : Nat) (steps : Nat → PollStep)
    (hok : ∀ j, (steps j).ok = true)
    (hnt : ∀ j, isTerminalPrediction (steps j).pred = false) :
    ∀ (fuel k : Nat) (prediction : JsonVal) (elapsed : Nat),
      isTerminalPrediction prediction = false →
      timeout + interval < elapsed + fuel * interval →
      ∃ n p, pollLoop interval timeout steps fuel k prediction elapsed = (.timedOut p, n) ∧
        (n = 0 ∨ elapsed + (n - 1) * interval ≤ timeout) ∧
        p = (if n = 0 then prediction else (steps (k + n - 1)).pred) ∧
        (elapsed ≤ timeout → 1 ≤ n) := by
  intro fuel
  induction fuel with
  | zero =>
    intro k prediction elapsed h0 hbig
    have he : elapsed > timeout := by omega
    refine ⟨0, prediction, ?_, Or.inl rfl, by simp, by omega⟩
    simp [pollLoop, h0, he]
  | succ fuel ih =>
    intro k prediction elapsed h0 hbig
    by_cases he : elapsed > timeout
    · refine ⟨0, prediction, ?_, Or.inl rfl, by simp, by omega⟩
      simp [pollLoop, h0, he]
    · have hstep := hok k
      have hnext : timeout + interval <
          elapsed + interval + (steps k).overhead + fuel * interval := by
        rw [Nat.succ_mul] at hbig
        omega
      obtain ⟨n, p, hrec, hbound, hlast, -⟩ :=
        ih (k + 1) (steps k).pred (elapsed + interval + (steps k).overhead) (hnt k) hnext
      refine ⟨n + 1, p, ?_, ?_, ?_, fun _ => by omega⟩
      · simp only [pollLoop, h0, Bool.false_eq_true, if_false]
        rw [if_neg he, if_pos hstep, hrec]
      · right
        rcases hbound with h | h
        · subst h
          simpa using Nat.le_of_not_lt he
        · rcases n with _ | m
          · simpa using Nat.le_of_not_lt he
          · simp only [Nat.add_sub_cancel] at h ⊢
            rw [Nat.succ_mul]
            omega
      · rcases n with _ | m
        · simpa using hlast
        · have harith : k + 1 + (m + 1) - 1 = k + (m + 1 + 1) - 1 := by omega
          simpa [harith] using hlast

/-- C1: if the created job's status never becomes terminal and every poll
succeeds, the polling loop of `createAndPollPrediction` aborts with the
timeout error carrying the last received job snapshot, and — because the
elapsed-versus-budget check runs before each sleep — the number of poll
(read) requests issued is bounded by `timeout/interval + 1`, hence also by
the claim's `⌈timeout/interval⌉ + 1`; at interval 10 ms and timeout 25 ms
the bound `25/10 + 1` is the claim's "at most 3 polls". -/
theorem pollLoop_timeout_poll_bound
    (interval timeout fuel : Nat) (steps : Nat → PollStep) (created : JsonVal)
    (hI : 0 < interval)
    (hok : ∀ j, (steps j).ok = true)
    (hnt : ∀ j, isTerminalPrediction (steps j).pred = false)
    (h0 : isTerminalPrediction created = false)
    (hfuel : timeout + interval < fuel * interval) :
    ∃ n, pollLoop interval timeout steps fuel 0 created 0 =
        (.timedOut ((steps (n - 1)).pred), n) ∧ 1 ≤ n ∧
      n ≤ timeout / interval + 1 ∧ n ≤ (timeout + interval - 1) / interval + 1 := by
  obtain ⟨n, p, hres, hbound, hlast, hpos⟩ :=
    pollLoop_stuck interval timeout steps hok hnt fuel 0 created 0 h0 (by omega)
  have hn1 : 1 ≤ n := hpos (Nat.zero_le _)
  have hnn : n ≠ 0 := by omega
  rw [if_neg hnn] at hlast
  have hb : (n - 1) * interval ≤ timeout := by
    rcases hbound with h | h
    · omega
    · simpa using h
  have hfloor : n - 1 ≤ timeout / interval := (Nat.le_div_iff_mul_le hI).mpr hb
  have hceil : timeout / interval ≤ (timeout + interval - 1) / interval :=
    Nat.div_le_div_right (by omega)
  refine ⟨n, ?_, hn1, by omega, by omega⟩
  rw [hres, hlast]
  simp

/-- Witness for C1: at interval 10 ms, timeout 25 ms and a job stuck at
"processing", the loop times out after at most `25/10 + 1 = 3` polls. -/
theorem pollLoop_timeout_poll_bound_witness :
    ∃ n, pollLoop 10 25 stuckSteps 4 0 procPrediction 0 =
        (.timedOut ((stuckSteps (n - 1)).pred), n) ∧ 1 ≤ n ∧
      n ≤ 25 / 10 + 1 ∧ n ≤ (25 + 10 - 1) / 10 + 1 :=
  pollLoop_timeout_poll_bound 10 25 4 stuckSteps procPrediction (by decide)
    (fun _ => rfl) (fun _ => rfl) (by decide) (by decide)

/-- A fully configured environment. -/
def envFull : Env := ⟨true, some "sv", some "nv", some "rv", "seedream"⟩

/-- A body with just a simple prompt. -/
def bodyHi : JsonVal := .obj [("prompt", .str "hi")]

/-- A network whose create request immediately returns a "failed" job. -/
def netFailedCreate : Network :=
  ⟨true, 201, .obj [("status", .str "failed")], fun _ => ⟨true, 200, .null, 0⟩⟩

/-- C2: a job status is terminal exactly when it is one of the strings
"succeeded", "failed", "canceled" (case-sensitive — any other string such
as "processing" is non-terminal), and a job observed in the "failed" or
"canceled" status is returned by the handler as the normal 200 result
carrying the prediction, not as an error response. -/
theorem terminal_statuses_and_nonerror_return :
    (∀ s : String, isTerminalPrediction (.obj [("status", .str s)]) = true ↔
      (s = "succeeded" ∨ s = "failed" ∨ s = "canceled")) ∧
    (∀ (env : Env) (body : JsonVal) (net : Network) (fuel interval timeout : Nat)
       (kp : String × JsonVal),
      normalizeRequest env body = .ok kp →
      net.createOk = true →
      (getFieldJS net.createResult "status" = .str "failed" ∨
       getFieldJS net.createResult "status" = .str "canceled") →
      handlePredictions env body net fuel interval timeout =
        (.predictionsOk 0 net.createResult, 1) ∧
      handlerStatus (.predictionsOk 0 net.createResult) = 200) := by
  constructor
  · intro s
    rw [show isTerminalPrediction (.obj [("status", .str s)]) = terminalStatuses.contains s
      from rfl]
    rw [show terminalStatuses.contains s = List.elem s ["succeeded", "failed", "canceled"]
      from rfl]
    simp [List.elem_eq_mem]
  · intro env body net fuel interval timeout kp hok hcreate hstatus
    have hterm : isTerminalPrediction net.createResult = true := by
      rcases hstatus with h | h <;> simp [isTerminalPrediction, h, terminalStatuses]
    refine ⟨?_, rfl⟩
    simp only [handlePredictions, hok, createAndPollPrediction, hcreate, if_true]
    rw [pollLoop_terminal interval timeout net.steps fuel 0 net.createResult 0 hterm]

/-- Witness for C2: a create response already in status "failed" is
returned as the 200 body after one network request (the create call). -/
theorem terminal_statuses_and_nonerror_return_witness :
    handlePredictions envFull bodyHi netFailedCreate 5 10 25 =
      (.predictionsOk 0 (JsonVal.obj [("status", .str "failed")]), 1) := by
  have h := terminal_statuses_and_nonerror_return.2 envFull bodyHi netFailedCreate 5 10 25
    ("seedream", buildInputPayload bodyHi "seedream" "hi") rfl rfl (Or.inl rfl)
  exact h.1

/-- Any payload the normalizer builds uses only its variant's fields. -/
theorem buildInputPayload_fields (body : JsonVal) (k t : String) :
    fieldNames (buildInputPayload body k t) ⊆ variantFields k := by
  by_cases hk : k = "seedream"
  · subst hk
    unfold buildInputPayload
    rw [if_pos rfl]
    simp only [variantFields]
    repeat' split
    all_goals simp [fieldNames]
  · have hv : variantFields k = ["prompt", "aspect_ratio", "output_format", "image_input"] := by
      unfold variantFields
      split
      · exact absurd rfl hk
      · rfl
    unfold buildInputPayload
    rw [if_neg hk, hv]
    split
    all_goals simp [fieldNames]

/-- Inversion of the normalizer's success case. -/
theorem normalizeRequest_ok (env : Env) (body : JsonVal) (k : String) (payload : JsonVal)
    (h : normalizeRequest env body = .ok (k, payload)) :
    k = resolveModelKey env body ∧
    payload = buildInputPayload body k (jsTrim (jsStringOrEmpty (getFieldJS body "prompt"))) := by
  unfold normalizeRequest at h
  split at h
  · exact absurd h (by simp)
  · split at h
    · exact absurd h (by simp)
    · exact absurd h (by simp)
    · split at h
      · exact absurd h (by simp)
      · rw [Except.ok.injEq, Prod.mk.injEq] at h
        obtain ⟨h1, h2⟩ := h
        exact ⟨h1.symm, by rw [← h2, h1]⟩

/-- The end-to-end nano-banana scenario of the claim. -/
def bodyCat : JsonVal := .obj [("model_key", .str "nano-banana"), ("prompt", .str "a cat")]

/-- C3: every successfully normalized request's input object carries only
the fields of the resolved model's variant, and the concrete nano-banana
request with prompt "a cat" and no image input normalizes to exactly the
three-field object of variant B defaults, with no seedream-only fields. -/
theorem normalized_payload_variant_fields :
    (∀ (env : Env) (body : JsonVal) (k : String) (payload : JsonVal),
      normalizeRequest env body = .ok (k, payload) →
      fieldNames payload ⊆ variantFields k) ∧
    normalizeRequest envFull bodyCat =
      .ok ("nano-banana",
        .obj [("prompt", .str "a cat"), ("aspect_ratio", .str "16:9"),
              ("output_format", .str "jpg")]) := by
  constructor
  · intro env body k payload h
    obtain ⟨-, hpayload⟩ := normalizeRequest_ok env body k payload h
    rw [hpayload]
    exact buildInputPayload_fields body k _
  · rfl

/-- Witness for C3: the general field-containment part applied to the
concrete nano-banana request. -/
theorem normalized_payload_variant_fields_witness :
    fieldNames
        (.obj [("prompt", JsonVal.str "a cat"), ("aspect_ratio", JsonVal.str "16:9"),
               ("output_format", JsonVal.str "jpg")]) ⊆
      variantFields "nano-banana" :=
  normalized_payload_variant_fields.1 envFull bodyCat "nano-banana"
    (.obj [("prompt", .str "a cat"), ("aspect_ratio", .str "16:9"),
           ("output_format", .str "jpg")]) rfl

/-- A body whose model key is unsupported while its prompt is whitespace
only. -/
def bodyBadKey : JsonVal := .obj [("model_key", .str "bogus"), ("prompt", .str "   ")]

/-- Counterexample to C4 as stated: on a fully configured server, a body
whose prompt trims to empty but whose model key is unsupported is rejected
with the unsupported-model error, not with the missing-prompt error — the
model-key check runs first. -/
theorem missing_prompt_preempted_by_model_key :
    jsTrim (jsStringOrEmpty (getFieldJS bodyBadKey "prompt")) = "" ∧
    normalizeRequest envFull bodyBadKey = .error (.unsupportedModel "bogus") ∧
    Phase1Error.unsupportedModel "bogus" ≠ Phase1Error.missingPrompt := by
  refine ⟨rfl, rfl, fun h => ?_⟩
  exact Phase1Error.noConfusion h

/-- C4 (amended): for every request body whose model key resolves to a
supported, configured model (with the token configured), a prompt that is
not a string or is empty after trimming — trimming happens before the
emptiness test — fails normalization with the missing-prompt validation
error, answered as HTTP 400, and the handler issues zero network
requests. -/
theorem missing_prompt_rejected_before_network (env : Env) (body : JsonVal)
    (htok : env.hasToken = true)
    (hver : ∃ v, modelVersion env (resolveModelKey env body) = some (some v))
    (hbad : jsTrim (jsStringOrEmpty (getFieldJS body "prompt")) = "") :
    normalizeRequest env body = .error .missingPrompt ∧
    phase1Status .missingPrompt = 400 ∧
    ∀ (net : Network) (fuel interval timeout : Nat),
      handlePredictions env body net fuel interval timeout =
        (.errResp 400 "Field \"prompt\" is required." none, 0) := by
  obtain ⟨v, hv⟩ := hver
  have hnorm : normalizeRequest env body = .error .missingPrompt := by
    unfold normalizeRequest
    rw [htok]
    simp only [Bool.true_eq_false, if_false]
    rw [hv]
    simp [hbad]
  refine ⟨hnorm, rfl, ?_⟩
  intro net fuel interval timeout
  simp only [handlePredictions, hnorm]
  rfl

/-- A body with a whitespace-only prompt and the default model key. -/
def bodyWhitespacePrompt : JsonVal := .obj [("prompt", .str "   ")]

/-- Witness for C4: the whitespace-only prompt is rejected as missing with
status 400 and zero network requests on a configured default model. -/
theorem missing_prompt_rejected_before_network_witness :
    normalizeRequest envFull bodyWhitespacePrompt = .error .missingPrompt ∧
    handlePredictions envFull bodyWhitespacePrompt netFailedCreate 5 10 25 =
      (.errResp 400 "Field \"prompt\" is required." none, 0) := by
  have h := missing_prompt_rejected_before_network envFull bodyWhitespacePrompt rfl
    ⟨"sv", rfl⟩ rfl
  exact ⟨h.1, h.2.2 netFailedCreate 5 10 25⟩

/-- The end-to-end seedream scenario of the claim: size "custom",
unparseable width, valid height. -/
def bodyAbc : JsonVal :=
  .obj [("prompt", .str "x"), ("size", .str "custom"), ("width", .str "abc"),
        ("height", .str "2000")]

/-- C6: under size "custom", width and height are parsed independently; an
unparseable dimension is omitted from the payload with no default, a
parseable one is included clamped into [1024, 4096]; concretely,
width "abc" with height "2000" yields a payload without `width` whose
`height` is 2000. -/
theorem custom_size_dimension_handling (body : JsonVal) (t : String)
    (hsize : normalizeSize (getFieldJS body "size") = "custom") :
    (parseIntJS (getFieldJS body "width") = none →
      "width" ∉ fieldNames (buildInputPayload body "seedream" t)) ∧
    (∀ w, parseIntJS (getFieldJS body "width") = some w →
      getFieldJS (buildInputPayload body "seedream" t) "width" =
        .num (clampNumber w 1024 4096) ∧
      1024 ≤ clampNumber w 1024 4096 ∧ clampNumber w 1024 4096 ≤ 4096) ∧
    (parseIntJS (getFieldJS body "height") = none →
      "height" ∉ fieldNames (buildInputPayload body "seedream" t)) ∧
    (∀ h, parseIntJS (getFieldJS body "height") = some h →
      getFieldJS (buildInputPayload body "seedream" t) "height" =
        .num (clampNumber h 1024 4096)) ∧
    fieldNames (buildInputPayload bodyAbc "seedream" "x") =
      ["prompt", "size", "aspect_ratio", "sequential_image_generation", "max_images",
       "height"] ∧
    getFieldJS (buildInputPayload bodyAbc "seedream" "x") "height" = .num 2000 := by
  refine ⟨?_, ?_, ?_, ?_, rfl, rfl⟩
  · intro hw
    unfold buildInputPayload
    rw [if_pos rfl, hsize, hw]
    repeat' split
    all_goals simp_all [fieldNames]
  · intro w hw
    refine ⟨?_, ?_, ?_⟩
    · unfold buildInputPayload
      rw [if_pos rfl, hsize, hw]
      repeat' split
      all_goals simp_all [getFieldJS, lookupField]
    · unfold clampNumber
      omega
    · unfold clampNumber
      omega
  · intro hh
    unfold buildInputPayload
    rw [if_pos rfl, hsize, hh]
    repeat' split
    all_goals simp_all [fieldNames]
  · intro h hh
    unfold buildInputPayload
    rw [if_pos rfl, hsize, hh]
    repeat' split
    all_goals simp_all [getFieldJS, lookupField]

/-- Witness for C6 at the concrete scenario body. -/
theorem custom_size_dimension_handling_witness :
    "width" ∉ fieldNames (buildInputPayload bodyAbc "seedream" "x") ∧
    getFieldJS (buildInputPayload bodyAbc "seedream" "x") "height" =
      .num (clampNumber 2000 1024 4096) := by
  have h := custom_size_dimension_handling bodyAbc "x" rfl
  exact ⟨h.1 rfl, h.2.2.2.1 2000 rfl⟩

/-- Modelled from claim C7's words, for comparison with the source: the
size value is case-adjusted only (no trimming) — "custom" when its
lowercasing is the literal "custom", its uppercasing when that is one of
the fixed menu, else the default "2K". -/
def sizeClaimUntrimmed (v : JsonVal) : String :=
  match v with
  | .str s =>
    if jsToLower s = "custom" then "custom"
    else if ["1K", "2K", "4K"].contains (jsToUpper s) then jsToUpper s
    else "2K"
  | _ => "2K"

/-- The amended description of the size normalization: identical to the
claim's, but applied to the trimmed value of the defaulted raw size. -/
def sizeClaimTrimmed (v : JsonVal) : String :=
  if jsToLower (jsTrim (jsStringOr v "2K")) = "custom" then "custom"
  else if ["1K", "2K", "4K"].contains (jsToUpper (jsTrim (jsStringOr v "2K"))) then
    jsToUpper (jsTrim (jsStringOr v "2K"))
  else "2K"

/-- Counterexample to C7 as stated: the source trims the raw size before
the case comparisons, so " custom " normalizes to "custom" while the
claim's trimless description yields the default "2K". -/
theorem size_case_only_counterexample :
    normalizeSize (.str " custom ") = "custom" ∧
    sizeClaimUntrimmed (.str " custom ") = "2K" ∧
    ("custom" : String) ≠ "2K" := by
  refine ⟨rfl, rfl, ?_⟩
  decide

/-- C7 (amended): the raw seedream size value is first trimmed (after the
non-string default "2K"); the trimmed value becomes "custom" when its
lowercasing is the literal "custom", becomes its uppercasing when that is
one of 1K/2K/4K, and anything else defaults to "2K" — so the result is
always one of the four accepted sizes. -/
theorem size_normalization_after_trim (v : JsonVal) :
    normalizeSize v = sizeClaimTrimmed v ∧
    normalizeSize v ∈ ["1K", "2K", "4K", "custom"] := by
  constructor
  · rfl
  · rw [show normalizeSize v = sizeClaimTrimmed v from rfl]
    unfold sizeClaimTrimmed
    split
    · simp
    · split
      · next h =>
        simp only [List.elem_eq_mem, decide_eq_true_eq, List.mem_cons,
          List.not_mem_nil, or_false] at h
        rcases h with h | h | h <;> simp [h]
      · simp

/-- The padded quasi-base64 string: 6 spaces then 95 capital As.  Its raw
length is 101 but its trimmed length is only 95. -/
def paddedBase64 : String := String.mk (List.replicate 6 ' ' ++ List.replicate 95 'A')

/-- Counterexample to C8 as stated: this candidate has no scheme, matches
the base64 alphabet pattern (whitespace is in the class) and has length
greater than 100, yet the source rejects it — the pattern and length tests
run on the trimmed candidate, whose length is only 95. -/
theorem base64_wrapping_counterexample :
    hasUrlScheme paddedBase64 = false ∧
    base64AlphabetTest paddedBase64 = true ∧
    100 < paddedBase64.length ∧
    normalizeImageValue (.str paddedBase64) "png" = none := by
  refine ⟨rfl, ?_, ?_, rfl⟩
  · decide
  · decide

/-- C8 (amended): a candidate whose trimmed value has no http(s)/data
scheme, matches the base64 alphabet pattern and has trimmed length greater
than 100 is wrapped as a data URI whose MIME subtype is the expected
output format sanitized to alphanumerics ("jpeg" when nothing survives),
with the payload being the trimmed candidate stripped of whitespace — for
expected format "png" exactly `data:image/png;base64,` plus that payload;
every other candidate whose trimmed value has no scheme is rejected. -/
theorem base64_wrapping_after_trim (s extension : String)
    (hscheme : hasUrlScheme (jsTrim s) = false)
    (hpat : base64AlphabetTest (jsTrim s) = true)
    (hlen : 100 < (jsTrim s).length) :
    normalizeImageValue (.str s) extension =
      some ("data:image/" ++ sanitizeFormat extension ++ ";base64," ++
        stripWhitespace (jsTrim s)) ∧
    normalizeImageValue (.str s) "png" =
      some ("data:image/png;base64," ++ stripWhitespace (jsTrim s)) ∧
    ∀ s2 : String, hasUrlScheme (jsTrim s2) = false →
      (base64AlphabetTest (jsTrim s2) = false ∨ (jsTrim s2).length ≤ 100) →
      normalizeImageValue (.str s2) extension = none := by
  have hne : jsTrim s ≠ "" := by
    intro h
    rw [h] at hpat
    exact absurd hpat (by decide)
  have hmain : ∀ ext : String, normalizeImageValue (.str s) ext =
      some ("data:image/" ++ sanitizeFormat ext ++ ";base64," ++ stripWhitespace (jsTrim s)) := by
    intro ext
    simp only [normalizeImageValue]
    rw [if_neg hne, if_neg (by simp [hscheme]), if_pos ⟨hpat, hlen⟩]
  refine ⟨hmain extension, ?_, ?_⟩
  · rw [hmain "png"]
    rfl
  · intro s2 hs2 hrej
    simp only [normalizeImageValue]
    by_cases h2 : jsTrim s2 = ""
    · rw [if_pos h2]
    · rw [if_neg h2, if_neg (by simp [hs2]), if_neg ?_]
      intro hcon
      rcases hrej with h | h
      · rw [hcon.1] at h
        exact Bool.noConfusion h
      · omega

/-- The unpadded 101-character base64-alphabet string. -/
def longBase64 : String := String.mk (List.replicate 101 'A')

/-- Witness for C8: the 101-character base64 candidate with expected
format "png" is wrapped exactly as claimed. -/
theorem base64_wrapping_after_trim_witness :
    normalizeImageValue (.str longBase64) "png" =
      some ("data:image/png;base64," ++ stripWhitespace (jsTrim longBase64)) :=
  (base64_wrapping_after_trim longBase64 "png" (by decide) (by decide) (by decide)).2.1

/-- First string-typed value among the given field values. -/
def firstPresentString (sources : List JsonVal) : Option String :=
  sources.findSome? (fun v =>
    match v with
    | .str s => some s
    | _ => none)

/-- Modelled from claim C5's words, for comparison with the source: an
object element contributes a single candidate, the first PRESENT STRING
among its image/url/uri/path fields (whether or not it normalizes). -/
def elementCandidateClaimC5 (item : JsonVal) : Option String :=
  match item with
  | .str s => some s
  | _ =>
    if isObjectLike item then
      firstPresentString
        [getFieldJS item "image", getFieldJS item "url", getFieldJS item "uri",
         getFieldJS item "path"]
    else none

/-- Modelled from claim C5's words: collect one candidate per element and
return the first, in source order, that normalizes successfully. -/
def extractImageClaimC5 (items : List JsonVal) (extension : String) : Option String :=
  (items.filterMap elementCandidateClaimC5).findSome?
    (fun c => normalizeImageValue (.str c) extension)

/-- The per-element result the source actually computes: a string element
is normalized directly; an object-like element yields the first of its
image/url/uri/path field values that NORMALIZES successfully. -/
def elementNormalized (extension : String) (item : JsonVal) : Option String :=
  match item with
  | .str s => normalizeImageValue (.str s) extension
  | _ =>
    if isObjectLike item then
      [getFieldJS item "image", getFieldJS item "url", getFieldJS item "uri",
       getFieldJS item "path"].findSome? (fun v => normalizeImageValue v extension)
    else none

/-- The object probes are a `findSome?` over the probed values. -/
theorem probeSources_eq_findSome (extension : String) (l : List JsonVal) :
    probeSources extension l = l.findSome? (fun v => normalizeImageValue v extension) := by
  induction l with
  | nil => rfl
  | cons v rest ih =>
    simp only [probeSources, List.findSome?_cons]
    cases normalizeImageValue v extension <;> simp [ih]

/-- The list scan is a `findSome?` over per-element normalized results. -/
theorem scanOutputList_eq_findSome (extension : String) (items : List JsonVal) :
    scanOutputList extension items = items.findSome? (elementNormalized extension) := by
  induction items with
  | nil => rfl
  | cons item rest ih =>
    rw [List.findSome?_cons]
    cases item <;>
      simp only [scanOutputList, elementNormalized, isObjectLike, probeSources_eq_findSome,
        if_true, if_false, ih] <;>
      (try split) <;>
      simp_all

/-- A list output whose single object element has an unusable `image`
string but a good `url`. -/
def predMixedSources : JsonVal :=
  .obj [("output", .arr [.obj [("image", .str "xx"), ("url", .str "https://a/i.png")]])]

/-- Counterexample to C5 as stated: on the object element with
image "xx" (a present string that fails to normalize) and a working url,
the source walks past the failing `image` field and returns the url,
while the claim's first-present-string reading extracts nothing. -/
theorem extract_image_first_present_string_counterexample :
    extractImageUrl predMixedSources "png" = some "https://a/i.png" ∧
    extractImageClaimC5 [.obj [("image", .str "xx"), ("url", .str "https://a/i.png")]] "png" =
      none := by
  exact ⟨rfl, rfl⟩

/-- C5 (amended): for a list-valued job output, each string element is
normalized directly and each object element is probed through its image,
url, uri, path fields in that fixed order, the element contributing the
first field value that NORMALIZES successfully (not merely the first
present string); the extractor returns the first element's successful
normalization in source order, and null exactly when every element
yields nothing. -/
theorem extract_image_list_first_normalizing (extension : String) (items : List JsonVal)
    (rest : List (String × JsonVal)) :
    extractImageUrl (.obj (("output", .arr items) :: rest)) extension =
      items.findSome? (elementNormalized extension) ∧
    (items.findSome? (elementNormalized extension) = none ↔
      ∀ item ∈ items, elementNormalized extension item = none) := by
  constructor
  · rw [show extractImageUrl (.obj (("output", .arr items) :: rest)) extension =
        extractFromOutput (.arr items) extension from rfl]
    simp only [extractFromOutput]
    rw [← scanOutputList_eq_findSome]
    cases h : scanOutputList extension items <;>
      simp [h, probeSources, normalizeImageValue, getFieldJS]
  · exact List.findSome?_eq_none_iff

/-- Characterization of the candidate scan: either every candidate trims
to empty and the result is "", or the result is the trimmed first
candidate with a non-empty trim. -/
theorem firstNonEmpty_spec (l : List String) :
    (firstNonEmpty l = "" ∧ ∀ x ∈ l, jsTrim x = "") ∨
    ∃ l1 c l2, l = l1 ++ c :: l2 ∧ (∀ x ∈ l1, jsTrim x = "") ∧ jsTrim c ≠ "" ∧
      firstNonEmpty l = jsTrim c := by
  induction l with
  | nil => exact Or.inl ⟨rfl, by simp⟩
  | cons c rest ih =>
    by_cases hc : jsTrim c = ""
    · rcases ih with ⟨h1, h2⟩ | ⟨l1, d, l2, heq, hall, hne, hval⟩
      · refine Or.inl ⟨?_, ?_⟩
        · simp [firstNonEmpty, hc, h1]
        · intro x hx
          rcases List.mem_cons.mp hx with rfl | hx
          · exact hc
          · exact h2 x hx
      · refine Or.inr ⟨c :: l1, d, l2, by simp [heq], ?_, hne, ?_⟩
        · intro x hx
          rcases List.mem_cons.mp hx with rfl | hx
          · exact hc
          · exact hall x hx
        · simp [firstNonEmpty, hc, hval]
    · exact Or.inr ⟨[], c, rest, by simp, by simp, hc, by simp [firstNonEmpty, hc]⟩

/-- C9 (amended): text extraction walks the candidates in the fixed order
of `textCandidates` — a plain string output, then each list-output
element's candidates (the string itself, its text/message fields, its
content-list pieces), then `output_text`, then the last five log lines
joined by spaces — and returns the TRIMMED first candidate that is
non-empty after trimming, else the empty string; and when extraction
yields the empty string, `/api/refine` answers HTTP 200 with the TRIMMED
original prompt as the refined prompt. -/
theorem text_extraction_order_and_refine_fallback :
    (∀ prediction : JsonVal, jsFalsy prediction = false →
      (extractTextOutput prediction = "" ∧ ∀ x ∈ textCandidates prediction, jsTrim x = "") ∨
      ∃ l1 c l2, textCandidates prediction = l1 ++ c :: l2 ∧
        (∀ x ∈ l1, jsTrim x = "") ∧ jsTrim c ≠ "" ∧
        extractTextOutput prediction = jsTrim c) ∧
    (∀ (env : Env) (body : JsonVal) (net : Network) (fuel interval timeout : Nat)
       (praw : String),
      env.hasToken = true → (∃ rv, env.refineVersion = some rv) →
      getFieldJS body "prompt" = .str praw → jsTrim praw ≠ "" →
      net.createOk = true → isTerminalPrediction net.createResult = true →
      extractTextOutput net.createResult = "" →
      handleRefine env body net fuel interval timeout =
        (.refineOk (jsTrim praw) 0 net.createResult, 1) ∧
      handlerStatus (.refineOk (jsTrim praw) 0 net.createResult) = 200) := by
  constructor
  · intro prediction hp
    rw [show extractTextOutput prediction = firstNonEmpty (textCandidates prediction)
      from by simp [extractTextOutput, hp]]
    exact firstNonEmpty_spec (textCandidates prediction)
  · intro env body net fuel interval timeout praw htok hrv hprompt hne hcreate hterm hext
    obtain ⟨rv, hv⟩ := hrv
    refine ⟨?_, rfl⟩
    unfold handleRefine
    rw [htok]
    simp only [Bool.true_eq_false, if_false, hv]
    rw [if_neg (by simp)]
    rw [hprompt]
    simp only [jsStringOrEmpty, jsStringOr]
    rw [if_neg hne]
    simp only [createAndPollPrediction, hcreate, if_true]
    rw [pollLoop_terminal interval timeout net.steps fuel 0 net.createResult 0 hterm]
    simp [hext]

/-- A refine request whose prompt carries surrounding whitespace. -/
def bodySpacedHi : JsonVal := .obj [("prompt", .str " hi ")]

/-- A bare succeeded prediction with no extractable text at all. -/
def predSucceededBare : JsonVal := .obj [("status", .str "succeeded")]

/-- A network whose create call immediately returns the bare succeeded
prediction. -/
def netSucceededBare : Network :=
  ⟨true, 201, predSucceededBare, fun _ => ⟨true, 200, .null, 0⟩⟩

/-- Counterexample to C9 as stated: with prompt " hi " and a finished job
with no extractable text, the refine endpoint answers with "hi" — the
trimmed prompt — which differs from the original prompt " hi ". -/
theorem refine_fallback_counterexample :
    extractTextOutput predSucceededBare = "" ∧
    handleRefine envFull bodySpacedHi netSucceededBare 5 10 25 =
      (.refineOk "hi" 0 predSucceededBare, 1) ∧
    ("hi" : String) ≠ " hi " := by
  refine ⟨rfl, rfl, ?_⟩
  decide

/-- Witness for C9: the fallback branch applied at the concrete spaced
prompt and textless prediction. -/
theorem text_extraction_order_and_refine_fallback_witness :
    handleRefine envFull bodySpacedHi netSucceededBare 5 10 25 =
      (.refineOk (jsTrim " hi ") 0 predSucceededBare, 1) := by
  have h := text_extraction_order_and_refine_fallback.2 envFull bodySpacedHi netSucceededBare
    5 10 25 " hi " rfl ⟨"rv", rfl⟩ rfl (by decide) rfl rfl rfl
  exact h.1

/-- C10: when the job's `output` field is null or absent, the top-level
`images` field becomes the candidate source; and a single non-array
object source has its image, url, uri, path fields probed in that fixed
order, the first value that normalizes successfully being returned, with
null exactly when all four fail. -/
theorem extract_image_fallback_and_object (prediction : JsonVal) (extension : String)
    (fields : List (String × JsonVal))
    (hp : jsFalsy prediction = false)
    (hout : getFieldJS prediction "output" = .null) :
    extractImageUrl prediction extension =
      extractFromOutput (getFieldJS prediction "images") extension ∧
    extractFromOutput (.obj fields) extension =
      [lookupField fields "image", lookupField fields "url", lookupField fields "uri",
       lookupField fields "path"].findSome? (fun v => normalizeImageValue v extension) ∧
    (extractFromOutput (.obj fields) extension = none ↔
      ∀ v ∈ [lookupField fields "image", lookupField fields "url", lookupField fields "uri",
             lookupField fields "path"], normalizeImageValue v extension = none) := by
  have hobj : extractFromOutput (.obj fields) extension =
      probeSources extension
        [lookupField fields "image", lookupField fields "url", lookupField fields "uri",
         lookupField fields "path"] := rfl
  refine ⟨?_, ?_, ?_⟩
  · simp [extractImageUrl, hp, hout, jsCoalesce]
  · rw [hobj]
    exact probeSources_eq_findSome extension _
  · rw [hobj, probeSources_eq_findSome]
    exact List.findSome?_eq_none_iff

/-- A prediction with a null output and an object-valued `images` field. -/
def predImagesOnly : JsonVal :=
  .obj [("output", .null), ("images", .obj [("uri", .str "https://c/k.png")])]

/-- Witness for C10 at the concrete null-output prediction. -/
theorem extract_image_fallback_and_object_witness :
    extractImageUrl predImagesOnly "png" =
      extractFromOutput (getFieldJS predImagesOnly "images") "png" ∧
    extractFromOutput (.obj [("uri", JsonVal.str "https://c/k.png")]) "png" =
      [lookupField [("uri", JsonVal.str "https://c/k.png")] "image",
       lookupField [("uri", JsonVal.str "https://c/k.png")] "url",
       lookupField [("uri", JsonVal.str "https://c/k.png")] "uri",
       lookupField [("uri", JsonVal.str "https://c/k.png")] "path"].findSome?
        (fun v => normalizeImageValue v "png") := by
  have h := extract_image_fallback_and_object predImagesOnly "png"
    [("uri", JsonVal.str "https://c/k.png")] rfl rfl
  exact ⟨h.1, h.2.1⟩

end Meepo
